import Mathlib

/-!
Verification development for the MarketSeer field-resolution engine
(`backend/app/mapping/base_mapper.py`, `backend/app/mapping/stocks/*`,
`backend/app/data_sources/client_manager.py`).

The Python code is shallowly embedded: dynamic Python values become the
inductive `PyVal`, raw provider responses become the tagged `RawData`
(pandas DataFrame / dict / anything else), dictionaries become association
lists with Python's insertion-order semantics, exceptions become `Except`
(a `try/except` in the source becomes an explicit `match` on the result),
and Python `set` iteration is modelled as first-insertion order (every
property proved below is insensitive to that order).  Provider fetch
invocations are additionally threaded through the definitions as a ghost
trace so that call-count properties can be stated.
-/

/-- A dynamic Python value as it occurs in provider responses: `None`,
a float NaN marker (`pd.isna`-positive), strings, integers, booleans and
(nested) dictionaries with string keys. -/
inductive PyVal where
  | pynone : PyVal
  | nan : PyVal
  | str : String → PyVal
  | int : Int → PyVal
  | boolv : Bool → PyVal
  | dict : List (String × PyVal) → PyVal

/-- A raw provider response as classified by `BaseMapper._extract_value`:
a pandas DataFrame (`hasattr(raw, 'iloc')`), modelled as a column list plus
rows given as per-row association lists; a Python dict; or any object of a
shape the extractor does not recognize. -/
inductive RawData where
  | frame : List String → List (List (String × PyVal)) → RawData
  | dict : List (String × PyVal) → RawData
  | other : RawData

/-- Association-list lookup, the model of Python `d[k]` / `k in d` on
string-keyed dicts (first binding wins, matching unique dict keys). -/
def alookup {α : Type} : List (String × α) → String → Option α
  | [], _ => none
  | (k, v) :: rest, key => if k = key then some v else alookup rest key

/-- Model of `pd.isna` on a scalar cell: true exactly on `None` and NaN. -/
def pdIsna : PyVal → Bool
  | PyVal.pynone => true
  | PyVal.nan => true
  | _ => false

/-- Model of the Python test `value is None`. -/
def isNone : PyVal → Bool
  | PyVal.pynone => true
  | _ => false

/-- Model of the Python test `value == ""` (false on every non-string). -/
def isEmptyStr : PyVal → Bool
  | PyVal.str s => s = ""
  | _ => false

/-- Helper for `str.split('.')`: accumulates the current segment. -/
def splitDotsAux : List Char → List Char → List String
  | [], acc => [String.mk acc.reverse]
  | c :: rest, acc =>
    if c = '.' then String.mk acc.reverse :: splitDotsAux rest []
    else splitDotsAux rest (c :: acc)

/-- Model of Python `field_path.split('.')`. -/
def splitDots (s : String) : List String := splitDotsAux s.data []

/-- Model of the nested-dict walk in `_extract_value`: for each key, step
into the current value if it is a dict containing the key, else the field
is missing (`None`); the value reached after the last key is returned
as-is (in particular a stored `None`, NaN or empty string is returned
unchanged). -/
def walkKeys : List String → PyVal → PyVal
  | [], cur => cur
  | key :: rest, cur =>
    match cur with
    | PyVal.dict entries =>
      match alookup entries key with
      | some v => walkKeys rest v
      | none => PyVal.pynone
    | _ => PyVal.pynone

/-- Model of the pandas NaN filter in `_extract_value`'s DataFrame branch:
`if pd.isna(value): return None; return value`. -/
def naCheck (v : PyVal) : PyVal := if pdIsna v then PyVal.pynone else v

/-- The `try`-block body of `BaseMapper._extract_value`.  A Python `raise`
escaping the body would appear as `Except.error`; the body as written
returns on every path: empty DataFrame, absent column, and any raw shape
other than DataFrame/dict all `return None`.  A present DataFrame cell is
read from the first row and NaN-filtered. -/
def extractValueTry (raw : RawData) (fieldPath : String) : Except String PyVal :=
  match raw with
  | RawData.frame cols rows =>
    match rows with
    | [] => Except.ok PyVal.pynone
    | r :: _ =>
      if fieldPath ∈ cols then
        Except.ok (naCheck ((alookup r fieldPath).getD PyVal.pynone))
      else Except.ok PyVal.pynone
  | RawData.dict d => Except.ok (walkKeys (splitDots fieldPath) (PyVal.dict d))
  | RawData.other => Except.ok PyVal.pynone

/-- `BaseMapper._extract_value`: the `try` body guarded by the catch-all
`except` handler, which logs and returns `None`. -/
def extractValue (raw : RawData) (fieldPath : String) : PyVal :=
  match extractValueTry raw fieldPath with
  | Except.ok v => v
  | Except.error _ => PyVal.pynone

example : extractValue (RawData.dict [("a", PyVal.str "")]) "a" = PyVal.str "" := rfl
example : extractValue (RawData.dict [("a", PyVal.nan)]) "a" = PyVal.nan := rfl
example : extractValue (RawData.frame ["c"] [[("c", PyVal.nan)]]) "c" = PyVal.pynone := rfl
example : extractValue RawData.other "a" = PyVal.pynone := rfl
example : extractValue (RawData.dict [("a", PyVal.dict [("b", PyVal.int 3)])]) "a.b" = PyVal.int 3 := rfl

/-- Model of the client registry (`ClientManager`): the set of data-source
names it knows (`ClientManager.data_sources`), and the provider call
`get_client(source).fetch(api_name, params)`.  `fetch` returning
`Except.error` models the client raising an exception; `Except.ok none`
models the client returning `None`; `get_client` on a name outside
`sources` raises `ValueError` (handled at each call site below). -/
structure ClientMgr where
  sources : List String
  fetch : String → String → List (String × PyVal) → Except String (Option RawData)

/-- One entry of `api_configs` (`mapping/stocks/config.py::API_CONFIGS`):
the backing data source, the `param_mapping` dict (API parameter name →
canonical input parameter name) and the configured `param_transformer`
function.  `BaseMapper._fetch_api` reads only the first two fields; the
transformer is carried in the configuration but never invoked there. -/
structure ApiConfig where
  dataSource : String
  paramMapping : List (String × String)
  paramTransformer : Option (PyVal → PyVal)

/-- The parameter-mapping loop of `BaseMapper._fetch_api`: for each
`(api_param, input_param)` pair, copy `params[input_param]` to
`api_param`; an absent input parameter raises
`ValueError("Missing required parameter: ...")`. -/
def mapParams : List (String × String) → List (String × PyVal) →
    Except String (List (String × PyVal))
  | [], _ => Except.ok []
  | (apiParam, inputParam) :: rest, params =>
    match alookup params inputParam with
    | some v => (mapParams rest params).map (fun m => (apiParam, v) :: m)
    | none => Except.error ("Missing required parameter: " ++ inputParam)

/-- One fallback-chain entry of `field_mapping`: the API name, the source
field path, and the optional `transform` function (which may raise,
hence `Except`). -/
structure FallbackEntry where
  api : String
  field : String
  transform : Option (PyVal → Except String PyVal)

/-- The `field_mapping` configuration: model field → ordered fallback chain. -/
abbrev FieldMapping := List (String × List FallbackEntry)

/-- `BaseMapper._fetch_api`.  Returns the raw data (`none` on any failure,
matching the catch-all handler that logs and returns `None`) together with
the ghost list of provider-fetch invocations actually made (empty when the
call fails before reaching `client.fetch`: unknown API name, missing
required parameter, unknown data source).  Failure points, in source
order: API name absent from `api_configs` → `None`; parameter mapping
raises `ValueError` → caught → `None`; `get_client` raises `ValueError`
for an unknown data source → caught → `None`; `client.fetch` raises →
caught → `None` (but the provider was invoked). -/
def fetchApi (cm : ClientMgr) (cfgs : List (String × ApiConfig))
    (apiName : String) (params : List (String × PyVal)) :
    Option RawData × List String :=
  match alookup cfgs apiName with
  | none => (none, [])
  | some cfg =>
    match mapParams cfg.paramMapping params with
    | Except.error _ => (none, [])
    | Except.ok mapped =>
      if cfg.dataSource ∈ cm.sources then
        match cm.fetch cfg.dataSource apiName mapped with
        | Except.ok r => (r, [apiName])
        | Except.error _ => (none, [apiName])
      else (none, [])

/-- The fallback chain configured for a field (`self.field_mapping[field]`;
fields processed below are always keys of the mapping). -/
def chainOf (fm : FieldMapping) (f : String) : List FallbackEntry :=
  (alookup fm f).getD []

/-- The API name a field's chain uses at a given priority depth, if the
chain is long enough (`priority_index < len(fallback_chain)`). -/
def apiAtDepth (fm : FieldMapping) (d : Nat) (f : String) : Option String :=
  ((chainOf fm f).get? d).map (fun e => e.api)

/-- Append an element to a list unless already present: the model of
`set.add` under the first-insertion iteration order. -/
def insertUniq (xs : List String) (x : String) : List String :=
  if x ∈ xs then xs else xs ++ [x]

/-- The `apis_to_fetch` set built by `map_all_fields` for one priority
depth: the distinct API names used at that depth by the chains of the
still-pending fields. -/
def collectApisAux (fm : FieldMapping) (d : Nat) : List String → List String → List String
  | [], acc => acc
  | f :: rest, acc =>
    match apiAtDepth fm d f with
    | some a => collectApisAux fm d rest (insertUniq acc a)
    | none => collectApisAux fm d rest acc

/-- The deduplicated API list for one depth (see `collectApisAux`). -/
def collectApis (fm : FieldMapping) (d : Nat) (pending : List String) : List String :=
  collectApisAux fm d pending []

/-- The per-depth fetch loop of `map_all_fields`: call `_fetch_api` for
each collected API name and cache the non-`None` results
(`api_cache[api_name] = raw_data`).  The second component is the
concatenated ghost trace of provider-fetch invocations. -/
def fetchPhase (cm : ClientMgr) (cfgs : List (String × ApiConfig))
    (params : List (String × PyVal)) :
    List String → List (String × RawData) × List String
  | [] => ([], [])
  | a :: rest =>
    let fr := fetchApi cm cfgs a params
    let r := fetchPhase cm cfgs params rest
    match fr.1 with
    | some raw => ((a, raw) :: r.1, fr.2 ++ r.2)
    | none => (r.1, fr.2 ++ r.2)

/-- The transform step of `map_all_fields`: a configured `transform` that
raises is caught and degrades the value to `None`. -/
def applyTransform (tf : Option (PyVal → Except String PyVal)) (v : PyVal) : PyVal :=
  match tf with
  | none => v
  | some f =>
    match f v with
    | Except.ok w => w
    | Except.error _ => PyVal.pynone

/-- The per-field body of the extraction loop of `map_all_fields` at one
depth: skip a field whose chain is exhausted, skip entries whose API is
not in the cache, extract the source field, and apply the transform to a
non-`None` value.  The returned value is `None` exactly when the field
must stay pending this round. -/
def tryField (fm : FieldMapping) (d : Nat) (cache : List (String × RawData))
    (f : String) : PyVal :=
  match (chainOf fm f).get? d with
  | none => PyVal.pynone
  | some entry =>
    match alookup cache entry.api with
    | none => PyVal.pynone
    | some raw =>
      let v := extractValue raw entry.field
      if isNone v then PyVal.pynone else applyTransform entry.transform v

/-- The extraction loop of `map_all_fields` over the pending fields at one
depth: successfully extracted fields are recorded (in iteration order)
and removed from pending; the rest remain pending. -/
def extractPhase (fm : FieldMapping) (d : Nat) (cache : List (String × RawData)) :
    List String → List (String × PyVal) × List String
  | [] => ([], [])
  | f :: rest =>
    let v := tryField fm d cache f
    let r := extractPhase fm d cache rest
    if isNone v then (r.1, f :: r.2) else ((f, v) :: r.1, r.2)

/-- The priority loop of `map_all_fields`: one iteration per depth, each
with a fresh `api_cache`, stopping early once no field is pending.
Returns the accumulated result dict, the final pending set, and the ghost
fetch traces, one entry per executed depth. -/
def runDepths (cm : ClientMgr) (cfgs : List (String × ApiConfig)) (fm : FieldMapping)
    (params : List (String × PyVal)) :
    List Nat → List String → List (String × PyVal) → List (List String) →
    List (String × PyVal) × List String × List (List String)
  | [], pending, result, traces => (result, pending, traces)
  | d :: ds, pending, result, traces =>
    if pending = [] then (result, pending, traces)
    else
      let ct := fetchPhase cm cfgs params (collectApis fm d pending)
      let vp := extractPhase fm d ct.1 pending
      runDepths cm cfgs fm params ds vp.2 (result ++ vp.1) (traces ++ [ct.2])

/-- `max(len(chain) for chain in field_mapping.values())` for a nonempty
mapping. -/
def maxChainLen (fm : FieldMapping) : Nat :=
  fm.foldl (fun acc p => max acc p.2.length) 0

/-- `BaseMapper.map_all_fields`.  On an empty `field_mapping` the source's
`max()` call raises `ValueError`; otherwise the priority loop runs over
depths `0..max_depth-1` starting from all fields pending.  The pending
set and the per-depth fetch traces are returned alongside the result dict
for specification purposes (the source returns `result` and logs the
rest). -/
def mapAllFields (cm : ClientMgr) (cfgs : List (String × ApiConfig))
    (fm : FieldMapping) (params : List (String × PyVal)) :
    Except String (List (String × PyVal) × List String × List (List String)) :=
  match fm with
  | [] => Except.error "ValueError: max() arg is an empty sequence"
  | _ =>
    Except.ok (runDepths cm cfgs fm params (List.range (maxChainLen fm))
      (fm.map Prod.fst) [] [])

/-- Concrete two-field configuration used in the counterexamples: field
`fA` resolves only through `api1`; field `fB` tries `api2` then `api1`. -/
def cexFm : FieldMapping :=
  [("fA", [FallbackEntry.mk "api1" "x" none]),
   ("fB", [FallbackEntry.mk "api2" "y" none, FallbackEntry.mk "api1" "y" none])]

/-- API registry for the counterexamples: both APIs live on source `src`
with no parameters. -/
def cexCfgs : List (String × ApiConfig) :=
  [("api1", ApiConfig.mk "src" [] none), ("api2", ApiConfig.mk "src" [] none)]

/-- Client whose every fetch succeeds but returns an empty dict, so no
field can ever be extracted. -/
def cexCm : ClientMgr :=
  ClientMgr.mk ["src"] (fun _ _ _ => Except.ok (some (RawData.dict [])))

/-- `info_mapping._merge_fields`: incremental merge that never overwrites
an already-set field; newly set fields are discarded from the missing
set. -/
def mergeFields : List (String × PyVal) → List (String × PyVal) → List String →
    List (String × PyVal) × List String
  | res, [], missing => (res, missing)
  | res, (f, v) :: rest, missing =>
    if f ∈ res.map Prod.fst then mergeFields res rest missing
    else mergeFields (res ++ [(f, v)]) rest (missing.erase f)

theorem alookup_append_of_mem {α : Type} :
    ∀ (xs ys : List (String × α)) (k : String), k ∈ xs.map Prod.fst →
      alookup (xs ++ ys) k = alookup xs k := by
  intro xs ys k h
  induction xs with
  | nil => simp at h
  | cons p rest ih =>
    obtain ⟨a, b⟩ := p
    simp only [List.cons_append, alookup]
    by_cases hak : a = k
    · simp [hak]
    · simp only [if_neg hak]
      apply ih
      simp only [List.map_cons, List.mem_cons] at h
      rcases h with h | h
      · exact absurd h.symm hak
      · exact h

theorem mergeFields_preserves :
    ∀ (newF res : List (String × PyVal)) (missing : List String) (g : String),
      g ∈ res.map Prod.fst →
      alookup (mergeFields res newF missing).1 g = alookup res g := by
  intro newF
  induction newF with
  | nil => intro res missing g _; rfl
  | cons p rest ih =>
    intro res missing g hg
    obtain ⟨f, v⟩ := p
    simp only [mergeFields]
    by_cases hf : f ∈ res.map Prod.fst
    · simp only [if_pos hf]
      exact ih res missing g hg
    · simp only [if_neg hf]
      have hg' : g ∈ (res ++ [(f, v)]).map Prod.fst := by
        simp only [List.map_append, List.mem_append]
        exact Or.inl hg
      rw [ih (res ++ [(f, v)]) (missing.erase f) g hg']
      exact alookup_append_of_mem res [(f, v)] g hg

theorem extractPhase_pending_sublist (fm : FieldMapping) (d : Nat)
    (cache : List (String × RawData)) :
    ∀ pending, (extractPhase fm d cache pending).2.Sublist pending := by
  intro pending
  induction pending with
  | nil => simp [extractPhase]
  | cons f rest ih =>
    simp only [extractPhase]
    split
    · exact List.Sublist.cons₂ f ih
    · exact List.Sublist.cons f ih

theorem extractPhase_keys_sublist (fm : FieldMapping) (d : Nat)
    (cache : List (String × RawData)) :
    ∀ pending, ((extractPhase fm d cache pending).1.map Prod.fst).Sublist pending := by
  intro pending
  induction pending with
  | nil => simp [extractPhase]
  | cons f rest ih =>
    simp only [extractPhase]
    split
    · exact List.Sublist.cons f ih
    · exact List.Sublist.cons₂ f ih

theorem extractPhase_mem (fm : FieldMapping) (d : Nat)
    (cache : List (String × RawData)) :
    ∀ pending f, f ∈ pending ↔
      (f ∈ (extractPhase fm d cache pending).1.map Prod.fst ∨
       f ∈ (extractPhase fm d cache pending).2) := by
  intro pending
  induction pending with
  | nil => intro f; simp [extractPhase]
  | cons g rest ih =>
    intro f
    simp only [extractPhase]
    split
    · simp only [List.mem_cons, List.map_cons]
      rw [ih f]
      tauto
    · simp only [List.mem_cons, List.map_cons]
      rw [ih f]
      tauto

theorem extractPhase_disjoint (fm : FieldMapping) (d : Nat)
    (cache : List (String × RawData)) :
    ∀ pending, pending.Nodup →
      ∀ f, f ∈ (extractPhase fm d cache pending).1.map Prod.fst →
        f ∉ (extractPhase fm d cache pending).2 := by
  intro pending
  induction pending with
  | nil => intro _ f hf; simp [extractPhase] at hf
  | cons g rest ih =>
    intro hnd f
    have hg : g ∉ rest := (List.nodup_cons.mp hnd).1
    have hrest : rest.Nodup := (List.nodup_cons.mp hnd).2
    simp only [extractPhase]
    split
    · intro hf
      have hfr : f ∈ rest :=
        (extractPhase_keys_sublist fm d cache rest).subset hf
      simp only [List.mem_cons]
      rintro (hfg | hf2)
      · exact hg (hfg ▸ hfr)
      · exact ih hrest f hf hf2
    · simp only [List.map_cons, List.mem_cons]
      rintro (hfg | hf)
      · subst hfg
        intro hf2
        exact hg ((extractPhase_pending_sublist fm d cache rest).subset hf2)
      · exact ih hrest f hf

theorem fetchApi_trace (cm : ClientMgr) (cfgs : List (String × ApiConfig))
    (a : String) (params : List (String × PyVal)) :
    (fetchApi cm cfgs a params).2 = [] ∨ (fetchApi cm cfgs a params).2 = [a] := by
  simp only [fetchApi]
  split
  · exact Or.inl rfl
  · split
    · exact Or.inl rfl
    · split
      · split
        · exact Or.inr rfl
        · exact Or.inr rfl
      · exact Or.inl rfl

theorem fetchPhase_trace_cons (cm : ClientMgr) (cfgs : List (String × ApiConfig))
    (params : List (String × PyVal)) (a : String) (rest : List String) :
    (fetchPhase cm cfgs params (a :: rest)).2 =
      (fetchApi cm cfgs a params).2 ++ (fetchPhase cm cfgs params rest).2 := by
  simp only [fetchPhase]
  cases (fetchApi cm cfgs a params).1 <;> rfl

theorem fetchPhase_trace_sublist (cm : ClientMgr) (cfgs : List (String × ApiConfig))
    (params : List (String × PyVal)) :
    ∀ apis, (fetchPhase cm cfgs params apis).2.Sublist apis := by
  intro apis
  induction apis with
  | nil => simp [fetchPhase]
  | cons a rest ih =>
    rw [fetchPhase_trace_cons]
    rcases fetchApi_trace cm cfgs a params with h | h
    · rw [h, List.nil_append]
      exact List.Sublist.cons a ih
    · rw [h, List.singleton_append]
      exact List.Sublist.cons₂ a ih

theorem insertUniq_nodup (xs : List String) (x : String) :
    xs.Nodup → (insertUniq xs x).Nodup := by
  intro h
  unfold insertUniq
  by_cases hx : x ∈ xs
  · simpa [hx] using h
  · simp [List.nodup_append, hx, h]

theorem collectApisAux_nodup (fm : FieldMapping) (d : Nat) :
    ∀ pending acc, acc.Nodup → (collectApisAux fm d pending acc).Nodup := by
  intro pending
  induction pending with
  | nil => intro acc h; exact h
  | cons f rest ih =>
    intro acc h
    simp only [collectApisAux]
    cases apiAtDepth fm d f with
    | some a => exact ih _ (insertUniq_nodup _ _ h)
    | none => exact ih _ h

theorem collectApis_nodup (fm : FieldMapping) (d : Nat) (pending : List String) :
    (collectApis fm d pending).Nodup :=
  collectApisAux_nodup fm d pending [] List.nodup_nil

theorem runDepths_mem (cm : ClientMgr) (cfgs : List (String × ApiConfig))
    (fm : FieldMapping) (params : List (String × PyVal)) :
    ∀ (ds : List Nat) (pending : List String) (result : List (String × PyVal))
      (traces : List (List String)) (f : String),
      (f ∈ result.map Prod.fst ∨ f ∈ pending) ↔
      (f ∈ (runDepths cm cfgs fm params ds pending result traces).1.map Prod.fst ∨
       f ∈ (runDepths cm cfgs fm params ds pending result traces).2.1) := by
  intro ds
  induction ds with
  | nil => intro pending result traces f; simp [runDepths]
  | cons d ds ih =>
    intro pending result traces f
    simp only [runDepths]
    by_cases hp : pending = []
    · simp [hp]
    · simp only [if_neg hp]
      rw [← ih]
      have hep := extractPhase_mem fm d
        (fetchPhase cm cfgs params (collectApis fm d pending)).1 pending f
      simp only [List.map_append, List.mem_append]
      tauto

theorem runDepths_nodup (cm : ClientMgr) (cfgs : List (String × ApiConfig))
    (fm : FieldMapping) (params : List (String × PyVal)) :
    ∀ (ds : List Nat) (pending : List String) (result : List (String × PyVal))
      (traces : List (List String)),
      pending.Nodup → (result.map Prod.fst).Nodup →
      (∀ f, f ∈ result.map Prod.fst → f ∉ pending) →
      ((runDepths cm cfgs fm params ds pending result traces).1.map Prod.fst).Nodup ∧
      (runDepths cm cfgs fm params ds pending result traces).2.1.Nodup ∧
      (∀ f, f ∈ (runDepths cm cfgs fm params ds pending result traces).1.map Prod.fst →
        f ∉ (runDepths cm cfgs fm params ds pending result traces).2.1) := by
  intro ds
  induction ds with
  | nil =>
    intro pending result traces hp hr hinv
    exact ⟨hr, hp, hinv⟩
  | cons d ds ih =>
    intro pending result traces hp hr hinv
    simp only [runDepths]
    by_cases hpe : pending = []
    · simp only [if_pos hpe]
      exact ⟨hr, hp, hinv⟩
    · simp only [if_neg hpe]
      apply ih
      · exact List.Nodup.sublist
          (extractPhase_pending_sublist fm d _ pending) hp
      · rw [List.map_append]
        refine List.Nodup.append hr
          (List.Nodup.sublist (extractPhase_keys_sublist fm d _ pending) hp) ?_
        intro a ha hb
        exact hinv a ha ((extractPhase_keys_sublist fm d _ pending).subset hb)
      · intro f hf
        rw [List.map_append, List.mem_append] at hf
        rcases hf with hf | hf
        · intro hf2
          exact hinv f hf
            ((extractPhase_pending_sublist fm d _ pending).subset hf2)
        · exact extractPhase_disjoint fm d _ pending hp f hf

theorem runDepths_traces_nodup (cm : ClientMgr) (cfgs : List (String × ApiConfig))
    (fm : FieldMapping) (params : List (String × PyVal)) :
    ∀ (ds : List Nat) (pending : List String) (result : List (String × PyVal))
      (traces : List (List String)),
      (∀ t ∈ traces, t.Nodup) →
      ∀ t ∈ (runDepths cm cfgs fm params ds pending result traces).2.2, t.Nodup := by
  intro ds
  induction ds with
  | nil => intro pending result traces h t ht; exact h t ht
  | cons d ds ih =>
    intro pending result traces h
    simp only [runDepths]
    by_cases hpe : pending = []
    · simp only [if_pos hpe]
      exact h
    · simp only [if_neg hpe]
      apply ih
      intro t ht
      rw [List.mem_append] at ht
      rcases ht with ht | ht
      · exact h t ht
      · rw [List.mem_singleton] at ht
        subst ht
        exact List.Nodup.sublist
          (fetchPhase_trace_sublist cm cfgs params (collectApis fm d pending))
          (collectApis_nodup fm d pending)

/-- Claim C1, counterexample.  With field `fA` mapped to `api1` at depth 0
and field `fB` mapped to `api2` then `api1`, and a client whose responses
never contain the requested fields, a single `map_all_fields` call invokes
the provider fetch for `api1` twice — once at depth 0 and again at
depth 1 — because `api_cache` is created afresh inside each iteration of
the priority loop.  This refutes the claim that the fetch for an API id
is invoked at most once per call regardless of depth. -/
theorem refetch_across_depths :
    mapAllFields cexCm cexCfgs cexFm [] =
      Except.ok ([], ["fA", "fB"], [["api1", "api2"], ["api1"]]) ∧
    (List.flatten [["api1", "api2"], ["api1"]]).count "api1" = 2 :=
  ⟨rfl, rfl⟩

/-- Claim C1 (amended): within each single priority depth of a
`map_all_fields` call, the provider fetch is invoked at most once per API
id — the per-depth fetch trace never repeats an id, so two pending fields
sharing an API id at the same depth cause one fetch for it in that round.
(Across depths the cache is rebuilt and the same id can be fetched
again.) -/
theorem fetch_once_per_depth :
    ∀ (cm : ClientMgr) (cfgs : List (String × ApiConfig)) (fm : FieldMapping)
      (params : List (String × PyVal)) (res : List (String × PyVal))
      (pend : List String) (traces : List (List String)) (t : List String),
      mapAllFields cm cfgs fm params = Except.ok (res, pend, traces) →
      t ∈ traces → t.Nodup := by
  intro cm cfgs fm params res pend traces t h ht
  cases fm with
  | nil => simp [mapAllFields] at h
  | cons p fmrest =>
    simp only [mapAllFields] at h
    have h2 := Except.ok.inj h
    have h3 : traces =
        (runDepths cm cfgs (p :: fmrest) params
          (List.range (maxChainLen (p :: fmrest)))
          ((p :: fmrest).map Prod.fst) [] []).2.2 := by
      rw [h2]
    rw [h3] at ht
    exact runDepths_traces_nodup cm cfgs (p :: fmrest) params _ _ _ []
      (by intro t' ht'; simp at ht') t ht

theorem fetch_once_per_depth_witness : List.Nodup ["api1", "api2"] :=
  fetch_once_per_depth cexCm cexCfgs cexFm [] [] ["fA", "fB"]
    [["api1", "api2"], ["api1"]] ["api1", "api2"] rfl (by simp)

/-- Claim C2: first-write-wins.  In any successful `map_all_fields` call
(with the distinct keys of a Python dict), every field is written at most
once — the result dict's keys contain no duplicates and no resolved field
is ever revisited (it is never also pending) — and the incremental merge
`_merge_fields` of `map_stock_info` leaves the binding of an already-set
field untouched. -/
theorem first_write_wins :
    ∀ (cm : ClientMgr) (cfgs : List (String × ApiConfig)) (fm : FieldMapping)
      (params : List (String × PyVal)) (res : List (String × PyVal))
      (pend : List String) (traces : List (List String)) (f g : String)
      (resM newF : List (String × PyVal)) (missM : List String),
      (fm.map Prod.fst).Nodup →
      mapAllFields cm cfgs fm params = Except.ok (res, pend, traces) →
      (res.map Prod.fst).Nodup ∧ (f ∈ res.map Prod.fst → f ∉ pend) ∧
      (g ∈ resM.map Prod.fst →
        alookup (mergeFields resM newF missM).1 g = alookup resM g) := by
  intro cm cfgs fm params res pend traces f g resM newF missM hnd h
  cases fm with
  | nil => simp [mapAllFields] at h
  | cons p fmrest =>
    simp only [mapAllFields] at h
    have h2 := Except.ok.inj h
    have hr := runDepths_nodup cm cfgs (p :: fmrest) params
      (List.range (maxChainLen (p :: fmrest))) ((p :: fmrest).map Prod.fst) [] []
      hnd (by simp) (by simp)
    rw [h2] at hr
    exact ⟨hr.1, fun hf => hr.2.2 f hf,
      fun hg => mergeFields_preserves newF resM missM g hg⟩

/-- Client that resolves both counterexample fields from `api1` at the
first depth: its responses carry both source fields `x` and `y`. -/
def fwwCm : ClientMgr :=
  ClientMgr.mk ["src"]
    (fun _ _ _ => Except.ok (some (RawData.dict
      [("x", PyVal.str "A"), ("y", PyVal.str "B")])))

/-- Single-field mapping whose chain has two entries on `api1`, so a
second entry could in principle revisit the field. -/
def fwwFm : FieldMapping :=
  [("name", [FallbackEntry.mk "api1" "x" none, FallbackEntry.mk "api1" "y" none])]

theorem first_write_wins_witness :
    List.Nodup ([("name", PyVal.str "A")].map Prod.fst) ∧
    ("name" ∈ [("name", PyVal.str "A")].map Prod.fst → "name" ∉ ([] : List String)) ∧
    ("a" ∈ [("a", PyVal.int 1)].map Prod.fst →
      alookup (mergeFields [("a", PyVal.int 1)] [("a", PyVal.int 2)] []).1 "a" =
        alookup [("a", PyVal.int 1)] "a") :=
  first_write_wins fwwCm cexCfgs fwwFm [] [("name", PyVal.str "A")] [] [["api1"]]
    "name" "a" [("a", PyVal.int 1)] [("a", PyVal.int 2)] []
    (by simp [fwwFm]) rfl

/-- Claim C3: per-endpoint and per-field failures are recovered locally.
For every client behaviour (including clients that raise on every call),
every API registry (including ones missing the referenced API names), and
every transform, `map_all_fields` on a nonempty `field_mapping` returns
normally — no exception propagates out — and every declared field ends
the call either resolved or still pending, never lost. -/
theorem failures_leave_fields_pending :
    ∀ (cm : ClientMgr) (cfgs : List (String × ApiConfig)) (fm : FieldMapping)
      (params : List (String × PyVal)) (f : String),
      fm ≠ [] →
      ∃ res pend traces,
        mapAllFields cm cfgs fm params = Except.ok (res, pend, traces) ∧
        (f ∈ fm.map Prod.fst ↔ (f ∈ res.map Prod.fst ∨ f ∈ pend)) := by
  intro cm cfgs fm params f hne
  cases fm with
  | nil => exact absurd rfl hne
  | cons p fmrest =>
    refine ⟨_, _, _, rfl, ?_⟩
    have hm := runDepths_mem cm cfgs (p :: fmrest) params
      (List.range (maxChainLen (p :: fmrest))) ((p :: fmrest).map Prod.fst) [] [] f
    simpa using hm

/-- Client on which every provider call raises. -/
def failCm : ClientMgr :=
  ClientMgr.mk ["src"] (fun _ _ _ => Except.error "boom")

theorem failures_leave_fields_pending_witness :
    ∃ res pend traces,
      mapAllFields failCm cexCfgs cexFm [] = Except.ok (res, pend, traces) ∧
      ("fA" ∈ cexFm.map Prod.fst ↔ ("fA" ∈ res.map Prod.fst ∨ "fA" ∈ pend)) :=
  failures_leave_fields_pending failCm cexCfgs cexFm [] "fA" (by simp [cexFm])

/-- Claim C4, counterexample.  The extractor does not normalize the empty
string: on both recognized shapes an empty-string cell is returned
unchanged, and in the nested-dict shape even a NaN value survives, so the
three markers do not all yield the missing result `None`. -/
theorem empty_string_not_normalized :
    extractValue (RawData.dict [("a", PyVal.str "")]) "a" = PyVal.str "" ∧
    extractValue (RawData.frame ["c"] [[("c", PyVal.str "")]]) "c" = PyVal.str "" ∧
    extractValue (RawData.dict [("b", PyVal.nan)]) "b" = PyVal.nan ∧
    PyVal.str "" ≠ PyVal.pynone :=
  ⟨rfl, rfl, rfl, fun h => PyVal.noConfusion h⟩

/-- Claim C4 (amended): the extractor's missing-normalization is not
uniform.  Extracting `None` yields missing in both shapes, and a NaN cell
yields missing in the row-table shape (via `pd.isna`); but in the
nested-dict shape NaN is returned unchanged, and an empty string is
returned unchanged in both shapes. -/
theorem missing_normalization_extent :
    ∀ (cols : List String) (r : List (String × PyVal))
      (rs : List (List (String × PyVal))) (p k : String)
      (d : List (String × PyVal)) (v : PyVal),
      (p ∈ cols → alookup r p = some v → pdIsna v = true →
        extractValue (RawData.frame cols (r :: rs)) p = PyVal.pynone) ∧
      (p ∈ cols → alookup r p = some (PyVal.str "") →
        extractValue (RawData.frame cols (r :: rs)) p = PyVal.str "") ∧
      (splitDots k = [k] → alookup d k = some PyVal.pynone →
        extractValue (RawData.dict d) k = PyVal.pynone) ∧
      (splitDots k = [k] → alookup d k = some PyVal.nan →
        extractValue (RawData.dict d) k = PyVal.nan) ∧
      (splitDots k = [k] → alookup d k = some (PyVal.str "") →
        extractValue (RawData.dict d) k = PyVal.str "") := by
  intro cols r rs p k d v
  refine ⟨?_, ?_, ?_, ?_, ?_⟩
  · intro hp hl hna
    simp [extractValue, extractValueTry, hp, hl, naCheck, hna]
  · intro hp hl
    simp [extractValue, extractValueTry, hp, hl, naCheck, pdIsna]
  · intro hs hl
    simp [extractValue, extractValueTry, hs, walkKeys, hl]
  · intro hs hl
    simp [extractValue, extractValueTry, hs, walkKeys, hl]
  · intro hs hl
    simp [extractValue, extractValueTry, hs, walkKeys, hl]

theorem missing_normalization_extent_witness :
    extractValue (RawData.frame ["c"] [[("c", PyVal.nan)]]) "c" = PyVal.pynone ∧
    extractValue (RawData.dict [("a", PyVal.pynone)]) "a" = PyVal.pynone :=
  ⟨(missing_normalization_extent ["c"] [("c", PyVal.nan)] [] "c" "a"
      [("a", PyVal.pynone)] PyVal.nan).1 (by simp) rfl rfl,
   (missing_normalization_extent ["c"] [("c", PyVal.nan)] [] "c" "a"
      [("a", PyVal.pynone)] PyVal.nan).2.2.1 rfl rfl⟩

/-- Claim C7, counterexample.  On a raw input outside the two recognized
shapes the extractor does not raise: the `try`-block body itself returns
the missing value `None` (final `return None`), so extraction returns a
value rather than raising. -/
theorem unrecognized_shape_returns_missing :
    extractValueTry RawData.other "a" = Except.ok PyVal.pynone ∧
    extractValue RawData.other "a" = PyVal.pynone :=
  ⟨rfl, rfl⟩

/-- Claim C7 (amended): `_extract_value` never raises at all — on every
raw input and path the `try` body returns normally (missing data yields
`None`), and an unrecognized raw shape also yields `None` instead of
raising. -/
theorem extractor_never_raises :
    ∀ (raw : RawData) (p : String),
      extractValueTry raw p = Except.ok (extractValue raw p) ∧
      (raw = RawData.other → extractValue raw p = PyVal.pynone) := by
  intro raw p
  constructor
  · cases raw with
    | frame cols rows =>
      cases rows with
      | nil => rfl
      | cons r rs =>
        simp only [extractValueTry, extractValue]
        split <;> rfl
    | dict d => rfl
    | other => rfl
  · intro h
    subst h
    rfl

theorem extractor_never_raises_witness :
    extractValue RawData.other "x" = PyVal.pynone :=
  (extractor_never_raises RawData.other "x").2 rfl

/-- Claim C5, counterexample.  A `param_mapping` rule whose canonical key
is absent from the caller's params is not omitted: the translation loop
raises `ValueError` (which `_fetch_api` then converts into a whole-endpoint
failure), rather than emitting the remaining parameters. -/
theorem absent_param_not_omitted :
    mapParams [("symbol", "symbol")] [] =
      Except.error "Missing required parameter: symbol" :=
  rfl

/-- Claim C5 (amended): for each rule whose canonical key is present the
raw value is emitted under the target key — the configured
`param_transformer` is never applied, as `_fetch_api`'s behaviour is
independent of that configuration field — and a rule whose canonical key
is absent raises a missing-parameter error (every rule is treated as
required) instead of being omitted. -/
theorem param_translation_behavior :
    ∀ (pm : List (String × String)) (params : List (String × PyVal)) (a i : String)
      (cm : ClientMgr) (ds apiName : String) (pmap : List (String × String))
      (t1 t2 : Option (PyVal → PyVal)),
      ((∀ r ∈ pm, (alookup params r.2).isSome = true) →
        mapParams pm params =
          Except.ok (pm.map (fun r => (r.1, (alookup params r.2).getD PyVal.pynone)))) ∧
      ((a, i) ∈ pm → alookup params i = none →
        ∃ e, mapParams pm params = Except.error e) ∧
      fetchApi cm [(apiName, ApiConfig.mk ds pmap t1)] apiName params =
        fetchApi cm [(apiName, ApiConfig.mk ds pmap t2)] apiName params := by
  intro pm params a i cm ds apiName pmap t1 t2
  refine ⟨?_, ?_, ?_⟩
  · intro hall
    induction pm with
    | nil => rfl
    | cons r rest ih =>
      obtain ⟨ap, ip⟩ := r
      have h1 : (alookup params ip).isSome = true :=
        hall (ap, ip) (List.mem_cons_self _ _)
      obtain ⟨v, hv⟩ := Option.isSome_iff_exists.mp h1
      simp only [mapParams, hv]
      rw [ih (fun r hr => hall r (List.mem_cons_of_mem _ hr))]
      simp [Except.map, hv]
  · intro hmem hnone
    induction pm with
    | nil => simp at hmem
    | cons r rest ih =>
      obtain ⟨ap, ip⟩ := r
      rcases List.mem_cons.mp hmem with heq | hmem'
      · have hip : ip = i := (Prod.mk.injEq a i ap ip).mp heq |>.2 |>.symm
        subst hip
        simp only [mapParams, hnone]
        exact ⟨_, rfl⟩
      · obtain ⟨e, he⟩ := ih hmem'
        simp only [mapParams]
        cases hv : alookup params ip with
        | none => exact ⟨_, rfl⟩
        | some v =>
          simp only [hv, he]
          exact ⟨e, rfl⟩
  · have h1 : alookup [(apiName, ApiConfig.mk ds pmap t1)] apiName =
        some (ApiConfig.mk ds pmap t1) := by simp [alookup]
    have h2 : alookup [(apiName, ApiConfig.mk ds pmap t2)] apiName =
        some (ApiConfig.mk ds pmap t2) := by simp [alookup]
    simp only [fetchApi, h1, h2]

theorem param_translation_behavior_witness :
    mapParams [("symbol", "symbol")] [("symbol", PyVal.str "600000")] =
      Except.ok [("symbol", PyVal.str "600000")] ∧
    fetchApi cexCm [("api1", ApiConfig.mk "src" [] (some (fun v => v)))] "api1" [] =
      fetchApi cexCm [("api1", ApiConfig.mk "src" [] none)] "api1" [] :=
  ⟨(param_translation_behavior [("symbol", "symbol")]
      [("symbol", PyVal.str "600000")] "symbol" "symbol" cexCm "src" "api1" []
      (some (fun v => v)) none).1 (by simp [alookup]),
   (param_translation_behavior [("symbol", "symbol")]
      [("symbol", PyVal.str "600000")] "symbol" "symbol" cexCm "src" "api1" []
      (some (fun v => v)) none).2.2⟩

/-- `BaseMapper` as constructed by `BaseMapper.__init__`: the three stored
configuration attributes. -/
structure BaseMapper where
  clientManager : ClientMgr
  fieldMapping : FieldMapping
  apiConfigs : List (String × ApiConfig)

/-- `BaseMapper.__init__`: assigns the attributes and returns; it performs
no validation of the field-mapping plan against `api_configs` or of the
configured data sources against the client registry, so construction
never raises. -/
def mkBaseMapper (cm : ClientMgr) (fm : FieldMapping)
    (cfgs : List (String × ApiConfig)) : Except String BaseMapper :=
  Except.ok (BaseMapper.mk cm fm cfgs)

/-- Plan that references an API name absent from every registry. -/
def misFm : FieldMapping := [("f", [FallbackEntry.mk "bogus_api" "x" none])]

/-- Claim C6, counterexample.  A plan referencing the unknown endpoint id
`bogus_api` is accepted without error at construction time, and the
subsequent `map_all_fields` call also completes normally — the
misconfiguration is silently absorbed inside the resolve call (the field
just stays pending and no provider fetch happens), not raised at
configuration-load time. -/
theorem misconfig_absorbed_in_resolve :
    mkBaseMapper cexCm misFm [] = Except.ok (BaseMapper.mk cexCm misFm []) ∧
    mapAllFields cexCm [] misFm [] = Except.ok ([], ["f"], [[]]) :=
  ⟨rfl, rfl⟩

/-- Claim C6 (amended): no configuration-load-time validation exists.
Construction always succeeds for any plan, and both misconfiguration
flavours are first encountered inside the resolve call, where
`_fetch_api` absorbs them: an API name absent from `api_configs` yields
`None` with no provider invocation, and a config naming a data source
unknown to `ClientManager` makes `get_client` raise `ValueError`, which
is caught, again yielding `None` with no provider invocation. -/
theorem no_load_time_validation :
    ∀ (cm : ClientMgr) (fm : FieldMapping) (cfgs : List (String × ApiConfig))
      (apiName : String) (params m : List (String × PyVal)) (ds : String)
      (pmap : List (String × String)) (pt : Option (PyVal → PyVal)),
      mkBaseMapper cm fm cfgs = Except.ok (BaseMapper.mk cm fm cfgs) ∧
      (alookup cfgs apiName = none → fetchApi cm cfgs apiName params = (none, [])) ∧
      (alookup cfgs apiName = some (ApiConfig.mk ds pmap pt) →
        mapParams pmap params = Except.ok m → ds ∉ cm.sources →
        fetchApi cm cfgs apiName params = (none, [])) := by
  intro cm fm cfgs apiName params m ds pmap pt
  refine ⟨rfl, ?_, ?_⟩
  · intro h
    simp [fetchApi, h]
  · intro h hm hds
    simp [fetchApi, h, hm, hds]

theorem no_load_time_validation_witness :
    mkBaseMapper cexCm misFm [] = Except.ok (BaseMapper.mk cexCm misFm []) ∧
    fetchApi cexCm [] "bogus_api" [] = (none, []) ∧
    fetchApi cexCm [("a", ApiConfig.mk "nosrc" [] none)] "a" [] = (none, []) :=
  ⟨(no_load_time_validation cexCm misFm [] "bogus_api" [] [] "nosrc" [] none).1,
   (no_load_time_validation cexCm misFm [] "bogus_api" [] [] "nosrc" [] none).2.1 rfl,
   (no_load_time_validation cexCm misFm
      [("a", ApiConfig.mk "nosrc" [] none)] "a" [] [] "nosrc" [] none).2.2
     (by simp [alookup]) rfl (by simp [cexCm])⟩

/-- Test for the first character of a string, used by the market-code
rules (`code.startswith('0')` etc.). -/
def startsWithCh (s : String) (c : Char) : Bool :=
  match s.data with
  | [] => false
  | x :: _ => x = c

/-- `app.utils.stock.add_market_prefix`: prepend `SZ`, `SH` or `BJ`
according to the code's first digit, else return the code unchanged. -/
def addMarketPfx (code : String) : String :=
  if startsWithCh code '0' || startsWithCh code '3' then "SZ" ++ code
  else if startsWithCh code '6' then "SH" ++ code
  else if startsWithCh code '8' || startsWithCh code '4' then "BJ" ++ code
  else code

/-- Python `cell == field` for a DataFrame cell compared with a string
(false on any non-string cell). -/
def pvEqStr (v : PyVal) (s : String) : Bool :=
  match v with
  | PyVal.str t => t = s
  | _ => false

/-- `stocks/info_config._get_value`: on a DataFrame with the item/value
layout, match the `item` column against the field name and read `value`
off the first matching row (NaN-filtered); on other DataFrames read the
named column off the first row (the `iloc[0]` of an empty frame raises
`IndexError`, converted to `None` by the catch-all handler); on dicts use
`.get`; anything else yields `None`. -/
def getValueIC (data : RawData) (field : String) : PyVal :=
  match data with
  | RawData.frame cols rows =>
    if "item" ∈ cols ∧ "value" ∈ cols then
      match rows.find? (fun r => pvEqStr ((alookup r "item").getD PyVal.pynone) field) with
      | some r => naCheck ((alookup r "value").getD PyVal.pynone)
      | none => PyVal.pynone
    else if field ∈ cols then
      match rows with
      | [] => PyVal.pynone
      | r :: _ => naCheck ((alookup r field).getD PyVal.pynone)
    else PyVal.pynone
  | RawData.dict d => (alookup d field).getD PyVal.pynone
  | RawData.other => PyVal.pynone

/-- Python truthiness of a value (`if value:`): false for `None`, `0`,
`False`, the empty string and the empty dict; NaN is truthy. -/
def pyTruthy : PyVal → Bool
  | PyVal.pynone => false
  | PyVal.nan => true
  | PyVal.str s => !(s == "")
  | PyVal.int n => !(n == 0)
  | PyVal.boolv b => b
  | PyVal.dict d => !d.isEmpty

/-- Python dict assignment `res[k] = v`: replace an existing binding or
append a new one. -/
def setItem (res : List (String × PyVal)) (k : String) (v : PyVal) :
    List (String × PyVal) :=
  if k ∈ res.map Prod.fst then
    res.map (fun p => if p.1 = k then (k, v) else p)
  else res ++ [(k, v)]

/-- The shared extraction loop of the three fetchers in `info_config.py`:
for each needed model field that the API's field map covers, keep the
extracted value when it is neither `None` nor the empty string. -/
def extractNeeded (mapping : List (String × String)) (data : RawData) :
    List String → List (String × PyVal)
  | [] => []
  | f :: rest =>
    match alookup mapping f with
    | some apiField =>
      let v := getValueIC data apiField
      if isNone v || isEmptyStr v then extractNeeded mapping data rest
      else (f, v) :: extractNeeded mapping data rest
    | none => extractNeeded mapping data rest

/-- `isinstance(data, pd.DataFrame) and len(data) == 0`. -/
def isEmptyFrame : RawData → Bool
  | RawData.frame _ [] => true
  | _ => false

/-- Field map of `_fetch_from_em` (east-money item names). -/
def emFieldMapping : List (String × String) :=
  [("code", "股票代码"), ("name", "股票简称"), ("full_name", "股票名称"),
   ("market", "市场类型"), ("industry_code", "行业代码"), ("industry", "行业"),
   ("establish_date", "成立日期"), ("list_date", "上市日期"),
   ("main_operation_business", "主营业务"), ("operating_scope", "经营范围"),
   ("status", "上市状态")]

/-- Field map of `_fetch_from_xq` (snowball field names). -/
def xqFieldMapping : List (String × String) :=
  [("name", "org_short_name_cn"), ("full_name", "org_name_cn"),
   ("establish_date", "established_date"), ("list_date", "listed_date"),
   ("main_operation_business", "main_operation_business"),
   ("operating_scope", "operating_scope")]

/-- Field map of `_fetch_from_efinance`. -/
def efFieldMapping : List (String × String) :=
  [("code", "股票代码"), ("name", "股票简称"), ("full_name", "股票名称"),
   ("market", "市场"), ("industry", "行业"), ("list_date", "上市日期"),
   ("status", "上市状态")]

/-- `_fetch_from_em`: call the akshare endpoint with the bare symbol; on
client exception, `None` or an empty frame return the empty dict, else
run the shared extraction loop.  The `except` handler returning `{}`
covers the `get_client` failure as well. -/
def fetchFromEm (symbol : String) (cm : ClientMgr) (needed : List String) :
    List (String × PyVal) :=
  if "akshare" ∈ cm.sources then
    match cm.fetch "akshare" "stock_individual_info_em"
        [("symbol", PyVal.str symbol)] with
    | Except.error _ => []
    | Except.ok none => []
    | Except.ok (some data) =>
      if isEmptyFrame data then []
      else extractNeeded emFieldMapping data needed
  else []

/-- The nested `affiliate_industry` handling of `_fetch_from_xq`: when
industry fields are needed and the nested value is a truthy dict, copy
truthy `ind_name`/`ind_code` entries into the result. -/
def xqIndustryPatch (res : List (String × PyVal)) (data : RawData)
    (needed : List String) : List (String × PyVal) :=
  if "industry" ∈ needed ∨ "industry_code" ∈ needed then
    match getValueIC data "affiliate_industry" with
    | PyVal.dict entries =>
      if entries.isEmpty then res
      else
        let res1 :=
          if "industry" ∈ needed then
            match alookup entries "ind_name" with
            | some v => if pyTruthy v then setItem res "industry" v else res
            | none => res
          else res
        if "industry_code" ∈ needed then
          match alookup entries "ind_code" with
          | some v => if pyTruthy v then setItem res1 "industry_code" v else res1
          | none => res1
        else res1
    | _ => res
  else res

/-- `_fetch_from_xq`: call the akshare snowball endpoint with the
market-prefixed symbol, run the shared extraction loop, then apply the
nested industry handling. -/
def fetchFromXq (symbol : String) (cm : ClientMgr) (needed : List String) :
    List (String × PyVal) :=
  if "akshare" ∈ cm.sources then
    match cm.fetch "akshare" "stock_individual_basic_info_xq"
        [("symbol", PyVal.str (addMarketPfx symbol))] with
    | Except.error _ => []
    | Except.ok none => []
    | Except.ok (some data) =>
      if isEmptyFrame data then []
      else xqIndustryPatch (extractNeeded xqFieldMapping data needed) data needed
  else []

/-- `_fetch_from_efinance`: call the efinance endpoint with the bare
symbol under the `stock_codes` parameter. -/
def fetchFromEfinance (symbol : String) (cm : ClientMgr) (needed : List String) :
    List (String × PyVal) :=
  if "efinance" ∈ cm.sources then
    match cm.fetch "efinance" "stock_individual_info"
        [("stock_codes", PyVal.str symbol)] with
    | Except.error _ => []
    | Except.ok none => []
    | Except.ok (some data) =>
      if isEmptyFrame data then []
      else extractNeeded efFieldMapping data needed
  else []

/-- Signature shared by the API-specific fetch functions. -/
abbrev FetchFunc := String → ClientMgr → List String → List (String × PyVal)

/-- `info_config.API_PRIORITY_CONFIG`: the fixed global priority chain. -/
def API_PRIORITY_CONFIG : List (String × FetchFunc) :=
  [("em", fetchFromEm), ("xq", fetchFromXq), ("efinance", fetchFromEfinance)]

/-- `info_config.ALL_FIELDS`: the declared model fields (the commented-out
`market`, `status` and `tracking` entries are excluded in the source). -/
def ALL_FIELDS : List String :=
  ["code", "name", "full_name", "industry_code", "industry",
   "establish_date", "list_date", "main_operation_business", "operating_scope"]

/-- `info_mapping._add_computed_fields`: seed `market` (from the code),
`status` and `tracking` defaults when absent. -/
def addComputedFields (res : List (String × PyVal)) (symbol : String) :
    List (String × PyVal) :=
  let r1 :=
    if "market" ∈ res.map Prod.fst then res
    else res ++ [("market", PyVal.str (addMarketPfx symbol))]
  let r2 :=
    if "status" ∈ r1.map Prod.fst then r1
    else r1 ++ [("status", PyVal.str "上市")]
  if "tracking" ∈ r2.map Prod.fst then r2
  else r2 ++ [("tracking", PyVal.boolv false)]

/-- The priority loop of `info_mapping.map_stock_info`: stop once no field
is missing; otherwise invoke the API's fetch function on the current
missing set and merge incrementally (merging an empty extraction is the
identity, matching the `if extracted:` guard; the fetchers model their own
catch-all handlers, so the loop's `try/except continue` has nothing left
to catch).  The third component is the ghost trace of tried APIs. -/
def mapStockInfoLoop (symbol : String) (cm : ClientMgr) :
    List (String × FetchFunc) → List (String × PyVal) → List String → List String →
    List (String × PyVal) × List String × List String
  | [], res, missing, trace => (res, missing, trace)
  | (name, f) :: rest, res, missing, trace =>
    if missing = [] then (res, missing, trace)
    else
      let mr := mergeFields res (f symbol cm missing) missing
      mapStockInfoLoop symbol cm rest mr.1 mr.2 (trace ++ [name])

/-- `info_mapping.map_stock_info`: computed defaults first, then the
priority loop over the fixed chain starting from all declared fields
missing. -/
def mapStockInfo (symbol : String) (cm : ClientMgr) :
    List (String × PyVal) × List String × List String :=
  mapStockInfoLoop symbol cm API_PRIORITY_CONFIG
    (addComputedFields [] symbol) ALL_FIELDS []

theorem mapStockInfoLoop_empty_missing (symbol : String) (cm : ClientMgr) :
    ∀ (cfgs : List (String × FetchFunc)) (res : List (String × PyVal))
      (trace : List String),
      mapStockInfoLoop symbol cm cfgs res [] trace = (res, [], trace) := by
  intro cfgs res trace
  cases cfgs with
  | nil => rfl
  | cons c rest =>
    obtain ⟨n, f⟩ := c
    simp [mapStockInfoLoop]

theorem mapStockInfoLoop_stops (symbol : String) (cm : ClientMgr) :
    ∀ (pre post : List (String × FetchFunc)) (res : List (String × PyVal))
      (missing trace : List String),
      (mapStockInfoLoop symbol cm pre res missing trace).2.1 = [] →
      mapStockInfoLoop symbol cm (pre ++ post) res missing trace =
        mapStockInfoLoop symbol cm pre res missing trace := by
  intro pre
  induction pre with
  | nil =>
    intro post res missing trace h
    simp only [mapStockInfoLoop] at h
    subst h
    rw [List.nil_append]
    simp [mapStockInfoLoop_empty_missing, mapStockInfoLoop]
  | cons c rest ih =>
    intro post res missing trace h
    obtain ⟨n, f⟩ := c
    by_cases hm : missing = []
    · simp only [List.cons_append, mapStockInfoLoop, if_pos hm]
    · simp only [List.cons_append, mapStockInfoLoop, if_neg hm] at h ⊢
      exact ih post _ _ _ h

theorem mapStockInfoLoop_trace (symbol : String) (cm : ClientMgr) :
    ∀ (cfgs : List (String × FetchFunc)) (res : List (String × PyVal))
      (missing trace : List String),
      ∃ s, (mapStockInfoLoop symbol cm cfgs res missing trace).2.2 = trace ++ s ∧
        s.Sublist (cfgs.map Prod.fst) := by
  intro cfgs
  induction cfgs with
  | nil =>
    intro res missing trace
    exact ⟨[], by simp [mapStockInfoLoop], by simp⟩
  | cons c rest ih =>
    intro res missing trace
    obtain ⟨n, f⟩ := c
    by_cases hm : missing = []
    · exact ⟨[], by simp [mapStockInfoLoop, hm], by simp⟩
    · obtain ⟨s, hs, hsub⟩ := ih (mergeFields res (f symbol cm missing) missing).1
        (mergeFields res (f symbol cm missing) missing).2 (trace ++ [n])
      refine ⟨n :: s, ?_, ?_⟩
      · simp only [mapStockInfoLoop, if_neg hm]
        rw [hs, List.append_assoc]
        rfl
      · simp only [List.map_cons]
        exact List.Sublist.cons₂ n hsub

/-- Claim C8: in the global-chain variant `map_stock_info`, the APIs are
tried in the one fixed configured order and each is invoked at most once
(the trace of tried APIs is always a sublist of
`["em", "xq", "efinance"]`), and the loop stops as soon as no declared
field is missing: whenever a prefix of the chain has emptied the missing
set, appending further APIs changes nothing — the later APIs are never
invoked. -/
theorem global_chain_stops_when_complete :
    ∀ (symbol : String) (cm : ClientMgr) (pre post : List (String × FetchFunc))
      (res : List (String × PyVal)) (missing trace : List String),
      ((mapStockInfoLoop symbol cm pre res missing trace).2.1 = [] →
        mapStockInfoLoop symbol cm (pre ++ post) res missing trace =
          mapStockInfoLoop symbol cm pre res missing trace) ∧
      (mapStockInfo symbol cm).2.2.Sublist ["em", "xq", "efinance"] := by
  intro symbol cm pre post res missing trace
  constructor
  · exact mapStockInfoLoop_stops symbol cm pre post res missing trace
  · obtain ⟨s, hs, hsub⟩ := mapStockInfoLoop_trace symbol cm API_PRIORITY_CONFIG
      (addComputedFields [] symbol) ALL_FIELDS []
    have hms : (mapStockInfo symbol cm).2.2 = s := by
      rw [show mapStockInfo symbol cm = mapStockInfoLoop symbol cm
        API_PRIORITY_CONFIG (addComputedFields [] symbol) ALL_FIELDS [] from rfl]
      rw [hs, List.nil_append]
    rw [hms]
    exact hsub

/-- Scenario-B provider frame: an item/value table covering every declared
field through the east-money field map. -/
def scenBFrame : RawData :=
  RawData.frame ["item", "value"]
    [[("item", PyVal.str "股票代码"), ("value", PyVal.str "600000")],
     [("item", PyVal.str "股票简称"), ("value", PyVal.str "X银行")],
     [("item", PyVal.str "股票名称"), ("value", PyVal.str "X银行股份有限公司")],
     [("item", PyVal.str "行业代码"), ("value", PyVal.str "J66")],
     [("item", PyVal.str "行业"), ("value", PyVal.str "银行")],
     [("item", PyVal.str "成立日期"), ("value", PyVal.str "1992-08-01")],
     [("item", PyVal.str "上市日期"), ("value", PyVal.str "1999-11-10")],
     [("item", PyVal.str "主营业务"), ("value", PyVal.str "商业银行业务")],
     [("item", PyVal.str "经营范围"), ("value", PyVal.str "吸收公众存款")]]

/-- Scenario-B client: the east-money endpoint returns the full frame,
every other endpoint returns `None`. -/
def scenBCm : ClientMgr :=
  ClientMgr.mk ["akshare", "efinance"]
    (fun _ api _ =>
      if api = "stock_individual_info_em" then Except.ok (some scenBFrame)
      else Except.ok none)

theorem global_chain_stops_when_complete_witness :
    mapStockInfoLoop "600000" scenBCm
        [("em", fetchFromEm), ("xq", fetchFromXq), ("efinance", fetchFromEfinance)]
        (addComputedFields [] "600000") ALL_FIELDS [] =
      mapStockInfoLoop "600000" scenBCm [("em", fetchFromEm)]
        (addComputedFields [] "600000") ALL_FIELDS [] :=
  (global_chain_stops_when_complete "600000" scenBCm [("em", fetchFromEm)]
    [("xq", fetchFromXq), ("efinance", fetchFromEfinance)]
    (addComputedFields [] "600000") ALL_FIELDS []).1 rfl

/-- Two-digit zero-padded decimal, as produced by `strftime('%m')`/
`strftime('%d')`. -/
def pad2 (n : Nat) : String :=
  if n < 10 then "0" ++ toString n else toString n

/-- Four-digit zero-padded decimal, as produced by `strftime('%Y')` for
common-era years. -/
def pad4 (n : Nat) : String :=
  if n < 10 then "000" ++ toString n
  else if n < 100 then "00" ++ toString n
  else if n < 1000 then "0" ++ toString n
  else toString n

/-- Civil date (year, month, day) of a day count since 1970-01-01,
computed with the standard era/day-of-era decomposition of the proleptic
Gregorian calendar. -/
def civilFromDays (days : Nat) : Nat × Nat × Nat :=
  let z := days + 719468
  let era := z / 146097
  let doe := z % 146097
  let yoe := (doe - doe / 1460 + doe / 36524 - doe / 146096) / 365
  let y := yoe + era * 400
  let doy := doe - (365 * yoe + yoe / 4 - yoe / 100)
  let mp := (5 * doy + 2) / 153
  let d := doy - (153 * mp + 2) / 5 + 1
  let m := if mp < 10 then mp + 3 else mp - 9
  if m ≤ 2 then (y + 1, m, d) else (y, m, d)

/-- The `list_date` millisecond-epoch conversion of
`stock_mapping.stock_info_mapper` —
`datetime.fromtimestamp(timestamp / 1000).strftime('%Y-%m-%d')` — and of
`stock_info_aggregator._to_date`'s milliseconds branch, with the
timezone fixed to UTC: seconds = ms / 1000, day count =
seconds / 86400, rendered as an ISO date.  (CPython uses the local
timezone here, which can shift the result by at most one calendar day;
the day count itself is the spec's own `value / 1000 / 86400`
formula.) -/
def listDateOfMs (ms : Nat) : String :=
  let secs := ms / 1000
  let days := secs / 86400
  match civilFromDays days with
  | (y, m, d) => pad4 y ++ "-" ++ pad2 m ++ "-" ++ pad2 d

/-- Claim C9, counterexample.  The millisecond epoch `760291200000` is
8799 whole days after 1970-01-01, which is 1994-02-03 — not the
1994-02-15 stated in the spec (the two dates differ by far more than any
timezone offset could explain). -/
theorem list_date_example_value :
    listDateOfMs 760291200000 = "1994-02-03" ∧
    listDateOfMs 760291200000 ≠ "1994-02-15" :=
  ⟨rfl, by decide⟩

/-- Claim C9 (amended): the `list_date` transform applied to the
millisecond epoch `760291200000` divides by 1000 and by 86400 to obtain
day count 8799 from the epoch, i.e. the ISO date `"1994-02-03"` (UTC;
the code's use of the local timezone can shift this by at most one
day, never to `"1994-02-15"`). -/
theorem list_date_epoch_conversion :
    listDateOfMs 760291200000 = "1994-02-03" ∧
    760291200000 / 1000 / 86400 = 8799 ∧
    civilFromDays 8799 = (1994, 2, 3) :=
  ⟨rfl, rfl, rfl⟩

/-- Parameter names of `BaseMapper.__init__` besides `self`; all three
lack defaults, so all are required. -/
def baseMapperInitParams : List String :=
  ["client_manager", "field_mapping", "api_configs"]

/-- Keyword arguments passed by `StockInfoMapper.__init__` to
`super().__init__`. -/
def stockInfoSuperKwargs : List String :=
  ["client_manager", "api_priority_chain", "api_configs",
   "api_field_mapping", "all_fields"]

/-- CPython keyword-argument binding for a call made purely with keyword
arguments: a keyword that names no parameter raises
`TypeError: ... got an unexpected keyword argument ...`; otherwise a
required parameter left unbound raises
`TypeError: ... missing ... required ... argument ...`. -/
def bindCallKwargs (params kwargs : List String) : Except String Unit :=
  match kwargs.find? (fun k => !(params.contains k)) with
  | some k => Except.error ("TypeError: unexpected keyword argument " ++ k)
  | none =>
    match params.find? (fun p => !(kwargs.contains p)) with
    | some p => Except.error ("TypeError: missing required argument " ++ p)
    | none => Except.ok ()

/-- `StockInfoMapper.__init__`: its body immediately performs
`super().__init__(client_manager=..., api_priority_chain=...,
api_configs=..., api_field_mapping=..., all_fields=...)`, so constructing
the object amounts to binding those keywords against
`BaseMapper.__init__`'s parameters. -/
def stockInfoMapperInit (_cm : ClientMgr) : Except String Unit :=
  bindCallKwargs baseMapperInitParams stockInfoSuperKwargs

/-- Claim C10: for every `ClientManager`, `StockInfoMapper(client_manager)`
raises `TypeError` — the forwarded keyword `api_priority_chain` (like
`api_field_mapping` and `all_fields`) names no parameter of
`BaseMapper.__init__`, whose only parameters are `client_manager`,
`field_mapping` and `api_configs`, so the subclass can never be
instantiated. -/
theorem stock_info_mapper_init_type_error :
    ∀ cm : ClientMgr,
      stockInfoMapperInit cm =
        Except.error "TypeError: unexpected keyword argument api_priority_chain" :=
  fun _ => rfl

theorem stock_info_mapper_init_type_error_witness :
    stockInfoMapperInit cexCm =
      Except.error "TypeError: unexpected keyword argument api_priority_chain" :=
  stock_info_mapper_init_type_error cexCm
